import Mathlib

/-!
Verification of the BaseLoc Maya locator plugin
(`packages/tp-dcc-tools-rig/tp/maya/plugins/baseLoc`).

The development shallowly embeds the geometry pipeline of
`BaseLocOverride::prepareForDraw`, the preset-file helpers of `Utils.h`,
the `BaseLocCommand` argument handling and the `presets` enum attribute of
`BaseLoc::initialize`, and proves the stated properties about them.

Modelling conventions:
* Maya `double` arithmetic is modelled over `ℚ` (exact arithmetic).
* `cos`/`sin` are opaque parameters `cosv sinv : ℚ → ℚ`, and `M_PI` is an
  opaque parameter `pi : ℚ`; the source only ever feeds angles through these
  functions, so every structural fact is independent of their values.
* Maya matrices act on row vectors (`MPoint * MMatrix`), so matrix products
  below compose left to right exactly as in the C++ expressions.
-/

/-- Model of `MPoint`/`MVector`: a triple of exact coordinates. -/
structure Pt where
  x : ℚ
  y : ℚ
  z : ℚ
deriving DecidableEq

/-- Origin, `MPoint(0.0, 0.0, 0.0)`. -/
def ptZero : Pt := ⟨0, 0, 0⟩

/-- Componentwise addition, `MPoint + MVector`. -/
def ptAdd (p q : Pt) : Pt := ⟨p.x + q.x, p.y + q.y, p.z + q.z⟩

/-- Scalar multiplication, `MPoint * double`. -/
def ptSmul (r : ℚ) (p : Pt) : Pt := ⟨r * p.x, r * p.y, r * p.z⟩

/-- Componentwise negation. -/
def ptNeg (p : Pt) : Pt := ⟨-p.x, -p.y, -p.z⟩

/-- Squared Euclidean distance; `MPoint::distanceTo(q) == 0.0` is equivalent
to `distSq p q = 0` since the distance is the square root of this value. -/
def distSq (p q : Pt) : ℚ :=
  (p.x - q.x) ^ 2 + (p.y - q.y) ^ 2 + (p.z - q.z) ^ 2

/-- Model of the linear (upper 3x3) part of an `MMatrix`. -/
structure Mat3 where
  m00 : ℚ
  m01 : ℚ
  m02 : ℚ
  m10 : ℚ
  m11 : ℚ
  m12 : ℚ
  m20 : ℚ
  m21 : ℚ
  m22 : ℚ
deriving DecidableEq

/-- Identity matrix. -/
def mat3Id : Mat3 := ⟨1, 0, 0, 0, 1, 0, 0, 0, 1⟩

/-- Matrix product; `A * B` in Maya's row-vector convention, so applying
`mul3 A B` to a point applies `A` first, then `B`. -/
def mul3 (A B : Mat3) : Mat3 :=
  ⟨A.m00 * B.m00 + A.m01 * B.m10 + A.m02 * B.m20,
   A.m00 * B.m01 + A.m01 * B.m11 + A.m02 * B.m21,
   A.m00 * B.m02 + A.m01 * B.m12 + A.m02 * B.m22,
   A.m10 * B.m00 + A.m11 * B.m10 + A.m12 * B.m20,
   A.m10 * B.m01 + A.m11 * B.m11 + A.m12 * B.m21,
   A.m10 * B.m02 + A.m11 * B.m12 + A.m12 * B.m22,
   A.m20 * B.m00 + A.m21 * B.m10 + A.m22 * B.m20,
   A.m20 * B.m01 + A.m21 * B.m11 + A.m22 * B.m21,
   A.m20 * B.m02 + A.m21 * B.m12 + A.m22 * B.m22⟩

/-- Row-vector action `p * A` of an `MMatrix` on an `MPoint`. -/
def mulPoint (p : Pt) (A : Mat3) : Pt :=
  ⟨p.x * A.m00 + p.y * A.m10 + p.z * A.m20,
   p.x * A.m01 + p.y * A.m11 + p.z * A.m21,
   p.x * A.m02 + p.y * A.m12 + p.z * A.m22⟩

/-- Diagonal scale matrix set by `MTransformationMatrix::setScale`. -/
def scaleDiag (sx sy sz : ℚ) : Mat3 := ⟨sx, 0, 0, 0, sy, 0, 0, 0, sz⟩

/-- Rotation about X by an angle with cosine `c` and sine `s`
(row-vector convention). -/
def rotXMat (c s : ℚ) : Mat3 := ⟨1, 0, 0, 0, c, s, 0, -s, c⟩

/-- Rotation about Y (row-vector convention). -/
def rotYMat (c s : ℚ) : Mat3 := ⟨c, 0, -s, 0, 1, 0, s, 0, c⟩

/-- Rotation about Z (row-vector convention). -/
def rotZMat (c s : ℚ) : Mat3 := ⟨c, s, 0, -s, c, 0, 0, 0, 1⟩

/-- Matrix of an `MEulerRotation (ax, ay, az)` with the default `kXYZ`
rotation order: rotate about X first, then Y, then Z, which in the
row-vector convention is the product `Rx * Ry * Rz`.  The trigonometric
functions are the opaque parameters `cosv`, `sinv`. -/
def eulerXYZMat (cosv sinv : ℚ → ℚ) (ax ay az : ℚ) : Mat3 :=
  mul3 (rotXMat (cosv ax) (sinv ax))
    (mul3 (rotYMat (cosv ay) (sinv ay)) (rotZMat (cosv az) (sinv az)))

theorem mulPoint_mul3 (p : Pt) (A B : Mat3) :
    mulPoint p (mul3 A B) = mulPoint (mulPoint p A) B := by
  simp only [mulPoint, mul3, Pt.mk.injEq]
  refine ⟨by ring, by ring, by ring⟩

theorem distSq_eq_zero_iff (p q : Pt) : distSq p q = 0 ↔ p = q := by
  constructor
  · intro h
    simp only [distSq] at h
    have hx : (p.x - q.x) ^ 2 = 0 := by
      nlinarith [sq_nonneg (p.x - q.x), sq_nonneg (p.y - q.y), sq_nonneg (p.z - q.z)]
    have hy : (p.y - q.y) ^ 2 = 0 := by
      nlinarith [sq_nonneg (p.x - q.x), sq_nonneg (p.y - q.y), sq_nonneg (p.z - q.z)]
    have hz : (p.z - q.z) ^ 2 = 0 := by
      nlinarith [sq_nonneg (p.x - q.x), sq_nonneg (p.y - q.y), sq_nonneg (p.z - q.z)]
    have hx0 : p.x = q.x := by nlinarith [hx]
    have hy0 : p.y = q.y := by nlinarith [hy]
    have hz0 : p.z = q.z := by nlinarith [hz]
    cases p; cases q; simp_all
  · rintro rfl
    simp [distSq]

/-!
Geometry transform of `BaseLocOverride::prepareForDraw`
(`BaseLoc.cpp`, lines 2884-2921): every generated point is computed as
`MPoint(...) * r * rM + offV`.
-/

/-- Transformation of a raw preset point, `MPoint * r * rM + offV`
(`BaseLoc.cpp` 2978, 3002, 3025, 3030). -/
def transformPoint (r : ℚ) (rM : Mat3) (off : Pt) (p : Pt) : Pt :=
  ptAdd (mulPoint (ptSmul r p) rM) off

/-- Offset vector `offV` of `prepareForDraw` (`BaseLoc.cpp` 2920-2921):
the offset attribute values plus the local-position attribute values. -/
def offVec (ox oy oz lx ly lz : ℚ) : Pt :=
  ptAdd ⟨ox, oy, oz⟩ ⟨lx, ly, lz⟩

/-!
Outline-loop segmentation (`BaseLoc.cpp` 3034-3072): the transformed point
list `tmpA` is cut into loops at the points whose distance to the
transformed origin `MPoint(0,0,0) * r * rM + offV` is zero.
-/

/-- Break-marker test of the segmentation loops (`BaseLoc.cpp` 3038, 3054,
3062): `tmpA[i].distanceTo(MPoint(0.0,0.0,0.0) * r * rM + offV) == 0.0`. -/
def isBreakPt (r : ℚ) (rM : Mat3) (off : Pt) (p : Pt) : Bool :=
  distSq p (transformPoint r rM off ptZero) == 0

/-- Index update of a `std::vector` slot, `v[i] = f(v[i])`; out-of-range
indices leave the vector unchanged. -/
def modifyNthL (f : α → α) : List α → Nat → List α
  | [], _ => []
  | a :: l, 0 => f a :: l
  | a :: l, n + 1 => a :: modifyNthL f l n

/-- Second segmentation loop of `prepareForDraw` (`BaseLoc.cpp` 3047-3072):
walks the points with the current slot index `vB`; a non-break point is
appended to slot `vB` (`m_locDrawPointsA[vB].append(lastP)`), a break point
advances `vB` guarded by `if (vB != vC)`. -/
def segLoop (brk : α → Bool) : List α → Nat → Nat → List (List α) → List (List α)
  | [], _, _, slots => slots
  | p :: rest, vB, vC, slots =>
    let slots1 := if brk p = false then modifyNthL (fun l => l ++ [p]) slots vB else slots
    let vB1 := if brk p = true then (if vB ≠ vC then vB + 1 else vB) else vB
    segLoop brk rest vB1 vC slots1

/-- Outline-loop segmentation of `prepareForDraw` (`BaseLoc.cpp` 3034-3072):
the first loop counts the break markers into `vC` (starting from 1), the
vector of loop slots is resized to `vC` empty slots, and the second loop
distributes the points. -/
def segmentLoops (brk : α → Bool) (tmpA : List α) : List (List α) :=
  let vC := 1 + tmpA.countP brk
  segLoop brk tmpA 0 vC (List.replicate vC [])

/-- Outline loops computed for the icon/box/camera/file presets
(`BaseLoc.cpp` 2926-3072): the raw preset points are transformed by
`* r * rM + offV` into `tmpA`, then segmented at the break markers. -/
def outlineLoops (r : ℚ) (rM : Mat3) (off : Pt) (rawPts : List Pt) : List (List Pt) :=
  segmentLoops (isBreakPt r rM off) (rawPts.map (transformPoint r rM off))

/-- Specification-side segmentation, following the claim text: the slot
list has one more slot than there are break markers, break markers are
emitted into no loop, and each non-break point goes, in order, to the slot
current at its position, the slot advancing at each break marker.  Returns
the first loop and the list of remaining loops. -/
def loopsSpec (brk : α → Bool) : List α → List α × List (List α)
  | [] => ([], [])
  | p :: rest =>
    let t := loopsSpec brk rest
    if brk p then ([], t.1 :: t.2) else (p :: t.1, t.2)

/-- Specification-side list of all loop slots. -/
def loopsSpecList (brk : α → Bool) (l : List α) : List (List α) :=
  (loopsSpec brk l).1 :: (loopsSpec brk l).2

theorem loopsSpec_snd_length (brk : α → Bool) (l : List α) :
    (loopsSpec brk l).2.length = l.countP brk := by
  induction l with
  | nil => simp [loopsSpec]
  | cons p rest ih =>
    by_cases h : brk p = true <;> simp [loopsSpec, List.countP_cons, h, ih]

theorem modifyNthL_at (f : α → α) (pre : List α) (cur : α) (post : List α) :
    modifyNthL f (pre ++ cur :: post) pre.length = pre ++ f cur :: post := by
  induction pre with
  | nil => simp [modifyNthL]
  | cons a pre ih => simp [modifyNthL, ih]

theorem segLoop_eq (brk : α → Bool) :
    ∀ (rest : List α) (pre : List (List α)) (cur : List α) (post : List (List α)),
      post.length = rest.countP brk → (∀ l ∈ post, l = []) →
      segLoop brk rest pre.length (pre.length + 1 + post.length) (pre ++ cur :: post)
        = pre ++ (cur ++ (loopsSpec brk rest).1) :: (loopsSpec brk rest).2 := by
  intro rest
  induction rest with
  | nil =>
    intro pre cur post hlen hpost
    simp only [List.countP_nil] at hlen
    have : post = [] := List.length_eq_zero.mp hlen
    subst this
    simp [segLoop, loopsSpec]
  | cons p rest ih =>
    intro pre cur post hlen hpost
    by_cases hb : brk p = true
    · have hlen1 : post.length = rest.countP brk + 1 := by
        simpa [List.countP_cons, hb] using hlen
      obtain ⟨post0, post1, rfl⟩ : ∃ a t, post = a :: t := by
        cases post with
        | nil => simp at hlen1
        | cons a t => exact ⟨a, t, rfl⟩
      have hpost0 : post0 = [] := hpost post0 (by simp)
      subst hpost0
      simp only [segLoop, hb, if_true, Bool.true_eq_false, if_false]
      have hne : pre.length ≠ pre.length + 1 + ([] :: post1 : List (List α)).length := by
        simp; omega
      rw [if_pos hne]
      have hlen3 : post1.length = rest.countP brk := by
        simp at hlen1
        omega
      have hstep := ih (pre ++ [cur]) [] post1 hlen3
        (fun l hl => hpost l (by simp [hl]))
      have harr : pre ++ cur :: [] :: post1 = (pre ++ [cur]) ++ [] :: post1 := by simp
      have hlen2 : (pre ++ [cur]).length = pre.length + 1 := by simp
      have hvc : pre.length + 1 + ([] :: post1 : List (List α)).length
          = (pre ++ [cur]).length + 1 + post1.length := by simp; omega
      rw [harr, hvc, ← hlen2]
      rw [hstep]
      simp [loopsSpec, hb]
    · have hbf : brk p = false := by simpa using hb
      simp only [segLoop, hbf, Bool.false_eq_true, if_false, if_true]
      rw [modifyNthL_at]
      have hstep := ih pre (cur ++ [p]) post
        (by simpa [List.countP_cons, hbf] using hlen) hpost
      rw [hstep]
      simp [loopsSpec, hbf]

/-- Claim C1.  Outline-loop segmentation by zero-distance break markers: in
`prepareForDraw` for the icon/box/camera/file presets, for every transformed
outline point list, a point at zero distance from the transformed origin
`MPoint(0,0,0) * r * rM + offV` acts as a break marker; the loop-slot list
has length one plus the number of break markers, break markers are emitted
into no loop, and every non-break point is appended, in input order, to the
slot current at its position, the slot index advancing by one at each break
marker. -/
theorem outlineLoops_segmentation (r : ℚ) (rM : Mat3) (off : Pt) (rawPts : List Pt) :
    outlineLoops r rM off rawPts
        = loopsSpecList (isBreakPt r rM off) (rawPts.map (transformPoint r rM off))
      ∧ (outlineLoops r rM off rawPts).length
          = (rawPts.map (transformPoint r rM off)).countP (isBreakPt r rM off) + 1
      ∧ ∀ p : Pt, isBreakPt r rM off p = true ↔ p = transformPoint r rM off ptZero := by
  have key : ∀ (brk : Pt → Bool) (l : List Pt),
      segmentLoops brk l = loopsSpecList brk l := by
    intro brk l
    have h := segLoop_eq brk l ([] : List (List Pt)) [] (List.replicate (l.countP brk) [])
      (by simp) (by intro x hx; exact List.eq_of_mem_replicate hx)
    simp only [List.length_nil, List.length_replicate, List.nil_append, Nat.zero_add] at h
    have hrep : (List.replicate (1 + l.countP brk) ([] : List Pt))
        = [] :: List.replicate (l.countP brk) [] := by
      rw [Nat.add_comm]
      simp [List.replicate_succ]
    simp only [segmentLoops, hrep]
    rw [h]
    simp [loopsSpecList]
  refine ⟨key _ _, ?_, ?_⟩
  · rw [outlineLoops, key]
    simp [loopsSpecList, loopsSpec_snd_length]
  · intro p
    simp only [isBreakPt, beq_iff_eq]
    exact distSq_eq_zero_iff p (transformPoint r rM off ptZero)

/-!
Model of `MMatrix` (affine part) and `MTransformationMatrix` as used by
`prepareForDraw` (`BaseLoc.cpp` 2852-2903).
-/

/-- Affine `MMatrix`: linear 3x3 block plus the translation row
(`matrix[3][0..2]`); the last column is `(0,0,0,1)`. -/
structure AffMat where
  lin : Mat3
  transl : Pt
deriving DecidableEq

/-- Zeroing of the translation row, `m[3][0] = m[3][1] = m[3][2] = 0.0`
(`BaseLoc.cpp` 2857-2859 and 2865-2867). -/
def zeroTranslate (A : AffMat) : AffMat := ⟨A.lin, ptZero⟩

/-- Determinant of the linear block. -/
def det3 (A : Mat3) : ℚ :=
  A.m00 * (A.m11 * A.m22 - A.m12 * A.m21)
    - A.m01 * (A.m10 * A.m22 - A.m12 * A.m20)
    + A.m02 * (A.m10 * A.m21 - A.m11 * A.m20)

/-- Componentwise scalar multiple of a matrix. -/
def smul3 (r : ℚ) (A : Mat3) : Mat3 :=
  ⟨r * A.m00, r * A.m01, r * A.m02,
   r * A.m10, r * A.m11, r * A.m12,
   r * A.m20, r * A.m21, r * A.m22⟩

/-- Inverse of the linear block via the adjugate (division by a zero
determinant yields the zero matrix, as `1/0 = 0` in `ℚ`). -/
def inv3 (A : Mat3) : Mat3 :=
  smul3 (1 / det3 A)
    ⟨A.m11 * A.m22 - A.m12 * A.m21,
     -(A.m01 * A.m22 - A.m02 * A.m21),
     A.m01 * A.m12 - A.m02 * A.m11,
     -(A.m10 * A.m22 - A.m12 * A.m20),
     A.m00 * A.m22 - A.m02 * A.m20,
     -(A.m00 * A.m12 - A.m02 * A.m10),
     A.m10 * A.m21 - A.m11 * A.m20,
     -(A.m00 * A.m21 - A.m01 * A.m20),
     A.m00 * A.m11 - A.m01 * A.m10⟩

/-- Product of affine matrices in the row-vector convention:
a point is mapped by `A` first, then by `B`. -/
def affMul (A B : AffMat) : AffMat :=
  ⟨mul3 A.lin B.lin, ptAdd (mulPoint A.transl B.lin) B.transl⟩

/-- Affine inverse, `MMatrix::inverse()`. -/
def affInv (A : AffMat) : AffMat :=
  ⟨inv3 A.lin, ptNeg (mulPoint A.transl (inv3 A.lin))⟩

/-- Model of `MTransformationMatrix`: the components the source touches,
a scale triple and a rotation (kept as its matrix).  Translation is never
set on the transformation matrices of `prepareForDraw` (the call is
commented out in the source, `BaseLoc.cpp` 2893). -/
structure TransformMat where
  scaleV : Pt
  rotM : Mat3
deriving DecidableEq

/-- Default-constructed `MTransformationMatrix` (identity). -/
def tmIdentity : TransformMat := ⟨⟨1, 1, 1⟩, mat3Id⟩

/-- Setter `MTransformationMatrix::setScale(scale, MSpace::kObject)`. -/
def setScaleTM (sx sy sz : ℚ) (t : TransformMat) : TransformMat :=
  { t with scaleV := ⟨sx, sy, sz⟩ }

/-- Object-space (pre-transform) `MTransformationMatrix::rotateBy(rot,
MSpace::kObject)`: in the row-vector convention the added rotation acts
before the stored rotation, so its matrix is multiplied on the left of the
rotation component. -/
def rotateByObjTM (F : Mat3) (t : TransformMat) : TransformMat :=
  { t with rotM := mul3 F t.rotM }

/-- Composition `MTransformationMatrix::asMatrix()`: scale first, then
rotation (row-vector convention). -/
def asMatrixTM (t : TransformMat) : Mat3 :=
  mul3 (scaleDiag t.scaleV.x t.scaleV.y t.scaleV.z) t.rotM

/-- Construction `MTransformationMatrix(billboardMat)` for the billboard
matrix: the matrix is stored in the rotation component at unit scale.
This matches Maya's decomposition exactly when the wrapped matrix has unit
scale, which holds for the rigid camera/world orientation matrices of the
billboard path. -/
def tmOfMatrix (M : Mat3) : TransformMat := ⟨⟨1, 1, 1⟩, M⟩

/-- Facing-angle Euler rotation of the billboard branch (`BaseLoc.cpp`
2872-2876): `-90` degrees about X by default, identity for presets 3 and 5,
`+90` degrees about X for preset 6, `-90` degrees about Y for preset 8. -/
def facingAngles (pi : ℚ) (preset : Int) : ℚ × ℚ × ℚ :=
  let e0 := ((-90 : ℚ) * (pi / 180), (0 : ℚ), (0 : ℚ))
  let e1 := if preset = 3 ∨ preset = 5 then ((0 : ℚ), (0 : ℚ), (0 : ℚ)) else e0
  let e2 := if preset = 6 then ((90 : ℚ) * (pi / 180), (0 : ℚ), (0 : ℚ)) else e1
  if preset = 8 then ((0 : ℚ), (-90 : ℚ) * (pi / 180), (0 : ℚ)) else e2

/-- Billboard branch of `prepareForDraw` (`BaseLoc.cpp` 2852-2881):
`billboardMat = camMatrix * worldMatrix.inverse()` with both translation
rows zeroed, wrapped into a transformation matrix and rotated in object
space by the preset-dependent facing angles. -/
def billboardMatrix (cosv sinv : ℚ → ℚ) (pi : ℚ) (preset : Int)
    (world cam : AffMat) : Mat3 :=
  let bb := affMul (zeroTranslate cam) (affInv (zeroTranslate world))
  let a := facingAngles pi preset
  asMatrixTM (rotateByObjTM (eulerXYZMat cosv sinv a.1 a.2.1 a.2.2) (tmOfMatrix bb.lin))

/-- Rotation-matrix computation of `prepareForDraw` (`BaseLoc.cpp`
2884-2903): scale is set in object space, then the XYZ Euler rotation of
the degree attributes converted to radians is applied; when the billboard
attribute is set the billboard matrix replaces the result. -/
def computeRotMatrix (cosv sinv : ℚ → ℚ) (pi : ℚ) (billboard : Bool)
    (preset : Int) (world cam : AffMat) (rx ry rz sx sy sz : ℚ) : Mat3 :=
  let rotOffEuler := eulerXYZMat cosv sinv (rx * (pi / 180)) (ry * (pi / 180)) (rz * (pi / 180))
  let rM := asMatrixTM (rotateByObjTM rotOffEuler (setScaleTM sx sy sz tmIdentity))
  if billboard then billboardMatrix cosv sinv pi preset world cam else rM

theorem mul3_id_left (A : Mat3) : mul3 mat3Id A = A := by
  cases A; simp [mul3, mat3Id]

theorem mul3_id_right (A : Mat3) : mul3 A mat3Id = A := by
  cases A; simp [mul3, mat3Id]

theorem rotXMat_id : rotXMat 1 0 = mat3Id := by
  simp [rotXMat, mat3Id]

theorem rotYMat_id : rotYMat 1 0 = mat3Id := by
  simp [rotYMat, mat3Id]

theorem rotZMat_id : rotZMat 1 0 = mat3Id := by
  simp [rotZMat, mat3Id]

theorem eulerXYZMat_xonly (cosv sinv : ℚ → ℚ) (ax : ℚ)
    (hc0 : cosv 0 = 1) (hs0 : sinv 0 = 0) :
    eulerXYZMat cosv sinv ax 0 0 = rotXMat (cosv ax) (sinv ax) := by
  rw [eulerXYZMat, hc0, hs0, rotYMat_id, rotZMat_id, mul3_id_left, mul3_id_right]

theorem eulerXYZMat_yonly (cosv sinv : ℚ → ℚ) (ay : ℚ)
    (hc0 : cosv 0 = 1) (hs0 : sinv 0 = 0) :
    eulerXYZMat cosv sinv 0 ay 0 = rotYMat (cosv ay) (sinv ay) := by
  rw [eulerXYZMat, hc0, hs0, rotXMat_id, rotZMat_id, mul3_id_left, mul3_id_right]

theorem eulerXYZMat_zero (cosv sinv : ℚ → ℚ)
    (hc0 : cosv 0 = 1) (hs0 : sinv 0 = 0) :
    eulerXYZMat cosv sinv 0 0 0 = mat3Id := by
  rw [eulerXYZMat, hc0, hs0, rotXMat_id, rotYMat_id, rotZMat_id, mul3_id_left, mul3_id_left]

/-!
Callback pair and refresh trigger (`BaseLoc.cpp` 229-258, 2176-2196,
3558-3564).
-/

/-- Fields of `BaseLocData` that govern the refresh trigger; `m_dagPathValid`
models `m_dagPath.isValid()` and `m_nodeStatusOk` the status returned by
`m_dagPath.node(&status)`. -/
structure BaseLocData where
  m_billboard : Bool
  m_drawPresets : Int
  m_dagPathValid : Bool
  m_nodeStatusOk : Bool
deriving DecidableEq

/-- Refresh callback `BaseLocOverride::triggerRefresh` (`BaseLoc.cpp`
229-258); the returned flag records whether
`MRenderer::setGeometryDrawDirty` was invoked, the only effect of the
function.  A null user-data pointer is modelled as `none`. -/
def triggerRefresh (data : Option BaseLocData) : Bool :=
  match data with
  | none => false
  | some d =>
    if d.m_billboard || d.m_drawPresets == 12 then
      if d.m_dagPathValid then
        if d.m_nodeStatusOk then true else false
      else false
    else false

/-- Emit callback `BaseLocOverride::addUIDrawables` (`BaseLoc.cpp`
3558-3564): with a null user-data pointer it returns before emitting any
primitive; otherwise the drawn primitives are those of the (abstracted)
body `emit`. -/
def addUIDrawables (emit : BaseLocData → List γ) (data : Option BaseLocData) : List γ :=
  match data with
  | none => []
  | some d => emit d

/-- Prepare callback `BaseLocOverride::prepareForDraw` (`BaseLoc.cpp`
2176-2196, 3554): the old user data is reused when the `dynamic_cast`
succeeds (`some`), a fresh `BaseLocData` is allocated otherwise, and the
(abstracted) attribute-reading body `compute` fills it; the function
returns the resulting non-null pointer. -/
def prepareForDraw (old : Option BaseLocData) (fresh : BaseLocData)
    (compute : BaseLocData → BaseLocData) : Option BaseLocData :=
  some (compute (match old with | some d => d | none => fresh))

/-- Claim C6.  For every invocation of `addUIDrawables` and of
`triggerRefresh` with null user data, the callback returns immediately,
emitting no primitive and changing no state; and `prepareForDraw` always
returns a non-null `BaseLocData`, allocating a fresh one when given no
reusable old data. -/
theorem null_data_guards (γ : Type) (emit : BaseLocData → List γ)
    (old : Option BaseLocData) (fresh : BaseLocData)
    (compute : BaseLocData → BaseLocData) :
    addUIDrawables emit none = ([] : List γ)
      ∧ triggerRefresh none = false
      ∧ (prepareForDraw old fresh compute).isSome = true
      ∧ prepareForDraw none fresh compute = some (compute fresh) := by
  refine ⟨rfl, rfl, ?_, rfl⟩
  cases old <;> rfl

/-- Claim C2.  When the billboard attribute is set, the rotation matrix
produced by `prepareForDraw` is the camera inclusive matrix times the
inverse of the node inclusive matrix, both with translation rows zeroed,
post-rotated in object space by the preset-dependent facing angle
(`-90` degrees about X by default, identity for presets 3 and 5, `+90`
degrees about X for preset 6, `-90` degrees about Y for preset 8); this
matrix entirely replaces the matrix derived from the rotate and scale
attributes, and `triggerRefresh` marks billboard nodes dirty so the matrix
is recomputed each frame. -/
theorem billboard_matrix_characterization (cosv sinv : ℚ → ℚ) (pi : ℚ)
    (billboard : Bool) (preset : Int) (world cam : AffMat)
    (rx ry rz sx sy sz : ℚ)
    (hc0 : cosv 0 = 1) (hs0 : sinv 0 = 0)
    (hc90 : cosv (90 * (pi / 180)) = 0) (hs90 : sinv (90 * (pi / 180)) = 1)
    (hcn90 : cosv (-90 * (pi / 180)) = 0) (hsn90 : sinv (-90 * (pi / 180)) = -1)
    (hb : billboard = true) :
    computeRotMatrix cosv sinv pi billboard preset world cam rx ry rz sx sy sz
        = mul3
            (if preset = 3 ∨ preset = 5 then mat3Id
             else if preset = 6 then rotXMat 0 1
             else if preset = 8 then rotYMat 0 (-1)
             else rotXMat 0 (-1))
            (affMul (zeroTranslate cam) (affInv (zeroTranslate world))).lin
      ∧ ∀ d : BaseLocData, d.m_billboard = true → d.m_dagPathValid = true →
          d.m_nodeStatusOk = true → triggerRefresh (some d) = true := by
  subst hb
  constructor
  · show billboardMatrix cosv sinv pi preset world cam = _
    rw [billboardMatrix]
    have hmat : ∀ F : Mat3,
        asMatrixTM (rotateByObjTM F
          (tmOfMatrix (affMul (zeroTranslate cam) (affInv (zeroTranslate world))).lin))
          = mul3 F (affMul (zeroTranslate cam) (affInv (zeroTranslate world))).lin := by
      intro F
      show mul3 (scaleDiag 1 1 1) (mul3 F _) = _
      have hd : scaleDiag 1 1 1 = mat3Id := rfl
      rw [hd, mul3_id_left]
      rfl
    rw [hmat]
    by_cases h35 : preset = 3 ∨ preset = 5
    · have h6 : ¬ preset = 6 := by rcases h35 with h | h <;> omega
      have h8 : ¬ preset = 8 := by rcases h35 with h | h <;> omega
      have ha : facingAngles pi preset = ((0 : ℚ), (0 : ℚ), (0 : ℚ)) := by
        simp only [facingAngles, if_pos h35, if_neg h6, if_neg h8]
      rw [ha]
      dsimp only
      rw [eulerXYZMat_zero cosv sinv hc0 hs0, if_pos h35]
    · by_cases h6 : preset = 6
      · have h8 : ¬ preset = 8 := by omega
        have ha : facingAngles pi preset = ((90 : ℚ) * (pi / 180), (0 : ℚ), (0 : ℚ)) := by
          simp only [facingAngles, if_pos h6, if_neg h8]
        rw [ha]
        dsimp only
        rw [eulerXYZMat_xonly cosv sinv _ hc0 hs0, hc90, hs90, if_neg h35, if_pos h6]
      · by_cases h8 : preset = 8
        · have ha : facingAngles pi preset = ((0 : ℚ), (-90 : ℚ) * (pi / 180), (0 : ℚ)) := by
            simp only [facingAngles, if_pos h8]
          rw [ha]
          dsimp only
          rw [eulerXYZMat_yonly cosv sinv _ hc0 hs0, hcn90, hsn90,
            if_neg h35, if_neg h6, if_pos h8]
        · have ha : facingAngles pi preset = ((-90 : ℚ) * (pi / 180), (0 : ℚ), (0 : ℚ)) := by
            simp only [facingAngles, if_neg h35, if_neg h6, if_neg h8]
          rw [ha]
          dsimp only
          rw [eulerXYZMat_xonly cosv sinv _ hc0 hs0, hcn90, hsn90,
            if_neg h35, if_neg h6, if_neg h8]
  · intro d hbb hdag hnode
    simp [triggerRefresh, hbb, hdag, hnode]

/-- Witness for C2 at concrete inputs. -/
theorem billboard_matrix_characterization_witness :
    computeRotMatrix (fun q => if q = 0 then 1 else 0)
        (fun q => if q = 90 then 1 else if q = -90 then -1 else 0)
        180 true 6
        ⟨mat3Id, ⟨1, 2, 3⟩⟩ ⟨rotZMat 0 1, ⟨4, 5, 6⟩⟩ 10 20 30 2 3 4
        = mul3 (rotXMat 0 1)
            (affMul (zeroTranslate ⟨rotZMat 0 1, ⟨4, 5, 6⟩⟩)
              (affInv (zeroTranslate ⟨mat3Id, ⟨1, 2, 3⟩⟩))).lin := by
  have h := billboard_matrix_characterization
    (fun q => if q = 0 then 1 else 0)
    (fun q => if q = 90 then 1 else if q = -90 then -1 else 0)
    180 true 6 ⟨mat3Id, ⟨1, 2, 3⟩⟩ ⟨rotZMat 0 1, ⟨4, 5, 6⟩⟩ 10 20 30 2 3 4
    (by norm_num) (by norm_num) (by norm_num) (by norm_num) (by norm_num)
    (by norm_num) rfl
  simpa using h.1

/-- Claim C3.  When the billboard attribute is not set, the matrix applied
to every preset point first scales in object space by
`(scaleX, scaleY, scaleZ)` and then rotates by the XYZ Euler rotation of
the rotate attributes converted from degrees to radians, and every
generated point is additionally translated by the offset vector plus the
local position. -/
theorem rotate_scale_transform (cosv sinv : ℚ → ℚ) (pi : ℚ)
    (billboard : Bool) (preset : Int) (world cam : AffMat)
    (rx ry rz sx sy sz r ox oy oz lx ly lz : ℚ)
    (hb : billboard = false) :
    ∀ p : Pt,
      transformPoint r
          (computeRotMatrix cosv sinv pi billboard preset world cam rx ry rz sx sy sz)
          (offVec ox oy oz lx ly lz) p
        = ptAdd
            (mulPoint
              (mulPoint
                (mulPoint
                  (mulPoint (ptSmul r p) (scaleDiag sx sy sz))
                  (rotXMat (cosv (rx * (pi / 180))) (sinv (rx * (pi / 180)))))
                (rotYMat (cosv (ry * (pi / 180))) (sinv (ry * (pi / 180)))))
              (rotZMat (cosv (rz * (pi / 180))) (sinv (rz * (pi / 180)))))
            (ptAdd ⟨ox, oy, oz⟩ ⟨lx, ly, lz⟩) := by
  subst hb
  intro p
  show ptAdd (mulPoint (ptSmul r p)
      (asMatrixTM (rotateByObjTM _ (setScaleTM sx sy sz tmIdentity)))) _ = _
  rw [offVec]
  show ptAdd (mulPoint (ptSmul r p)
      (mul3 (scaleDiag sx sy sz) (mul3 (eulerXYZMat cosv sinv _ _ _) mat3Id))) _ = _
  rw [mul3_id_right, eulerXYZMat, mulPoint_mul3, mulPoint_mul3, mulPoint_mul3]

/-- Witness for C3 at concrete inputs. -/
theorem rotate_scale_transform_witness :
    transformPoint 2
        (computeRotMatrix (fun _ => 1) (fun _ => 0) 3 false 0
          ⟨mat3Id, ptZero⟩ ⟨mat3Id, ptZero⟩ 10 20 30 2 3 4)
        (offVec 1 2 3 4 5 6) ⟨1, 1, 1⟩
      = ptAdd
          (mulPoint
            (mulPoint
              (mulPoint
                (mulPoint (ptSmul 2 ⟨1, 1, 1⟩) (scaleDiag 2 3 4))
                (rotXMat 1 0))
              (rotYMat 1 0))
            (rotZMat 1 0))
          (ptAdd ⟨1, 2, 3⟩ ⟨4, 5, 6⟩) := by
  have h := rotate_scale_transform (fun _ => 1) (fun _ => 0) 3 false 0
    ⟨mat3Id, ptZero⟩ ⟨mat3Id, ptZero⟩ 10 20 30 2 3 4 2 1 2 3 4 5 6 rfl ⟨1, 1, 1⟩
  simpa using h

/-!
Circle preset (`BaseLoc.cpp` 3110-3132): outline points of preset 0.
-/

/-- Point emitted by one iteration of the circle loop at angle `i`
(`BaseLoc.cpp` 3121-3125): `MPoint(cos(i) * (r * 0.5), 0.0,
sin(i) * (r * 0.5))`, multiplied by `rM` and translated by `offV`. -/
def circlePointAt (cosv sinv : ℚ → ℚ) (r : ℚ) (rM : Mat3) (off : Pt) (i : ℚ) : Pt :=
  ptAdd (mulPoint ⟨cosv i * (r * (1 / 2)), 0, sinv i * (r * (1 / 2))⟩ rM) off

/-- Circle loop of `prepareForDraw` (`BaseLoc.cpp` 3119-3132):
`for (double i = 0; i < 2 * M_PI; i += M_PI / division)` with
`division = 21`; the point is appended, and appended a second time when
`i != 0`.  The C++ loop runs at most 42 iterations for every positive
`M_PI` and none otherwise, so the explicit fuel below never runs out. -/
def circleGo (cosv sinv : ℚ → ℚ) (pi r : ℚ) (rM : Mat3) (off : Pt) :
    Nat → ℚ → List Pt
  | 0, _ => []
  | fuel + 1, i =>
    if i < 2 * pi then
      let lastL := circlePointAt cosv sinv r rM off i
      lastL :: ((if i ≠ 0 then [lastL] else [])
        ++ circleGo cosv sinv pi r rM off fuel (i + pi / 21))
    else []

/-- Outline point list `m_locDrawPoints` of the circle preset. -/
def circleDrawPoints (cosv sinv : ℚ → ℚ) (pi r : ℚ) (rM : Mat3) (off : Pt) : List Pt :=
  circleGo cosv sinv pi r rM off 100 0

/-- Specification-side circle samples: the points at angles `k * (pi/21)`
for `k = 0, ..., 41` (all multiples of `pi/21` below `2 * pi`). -/
def circleSpecPoints (cosv sinv : ℚ → ℚ) (pi r : ℚ) (rM : Mat3) (off : Pt) : List Pt :=
  (List.range 42).map (fun k : Nat => circlePointAt cosv sinv r rM off ((k : ℚ) * (pi / 21)))

/-- Duplication of every element of a list. -/
def dupTwice : List α → List α
  | [] => []
  | q :: qs => q :: q :: dupTwice qs

/-- Specification-side duplication pattern of the circle loop: every point
except the first is appended twice, so that consecutive pairs form line
segments. -/
def dupAllButFirst : List α → List α
  | [] => []
  | p :: ps => p :: dupTwice ps

theorem circleGo_tail (cosv sinv : ℚ → ℚ) (pi r : ℚ) (rM : Mat3) (off : Pt)
    (hpi : 0 < pi) :
    ∀ (n k fuel : Nat), 1 ≤ k → k + n = 42 → n < fuel →
      circleGo cosv sinv pi r rM off fuel ((k : ℚ) * (pi / 21))
        = dupTwice ((List.range' k n).map
            (fun j : Nat => circlePointAt cosv sinv r rM off ((j : ℚ) * (pi / 21)))) := by
  intro n
  induction n with
  | zero =>
    intro k fuel hk hk42 hfuel
    obtain ⟨m, rfl⟩ : ∃ m, fuel = m + 1 := ⟨fuel - 1, by omega⟩
    have hk' : k = 42 := by omega
    subst hk'
    have heq : ((42 : Nat) : ℚ) * (pi / 21) = 2 * pi := by push_cast; ring
    simp only [circleGo, heq, lt_self_iff_false, if_false]
    simp [dupTwice]
  | succ n ih =>
    intro k fuel hk hk42 hfuel
    obtain ⟨m, rfl⟩ : ∃ m, fuel = m + 1 := ⟨fuel - 1, by omega⟩
    have hstep : (0 : ℚ) < pi / 21 := by positivity
    have hklt : ((k : ℚ)) * (pi / 21) < 2 * pi := by
      have h42 : ((k : ℚ)) < 42 := by exact_mod_cast (by omega : k < 42)
      calc ((k : ℚ)) * (pi / 21) < 42 * (pi / 21) := by
            exact mul_lt_mul_of_pos_right h42 hstep
        _ = 2 * pi := by ring
    have hne : ((k : ℚ)) * (pi / 21) ≠ 0 := by
      have hkpos : (0 : ℚ) < (k : ℚ) := by exact_mod_cast (by omega : 0 < k)
      positivity
    have hnext : ((k : ℚ)) * (pi / 21) + pi / 21 = (((k + 1 : Nat)) : ℚ) * (pi / 21) := by
      push_cast; ring
    simp only [circleGo, hklt, if_true, hne, ne_eq, not_false_eq_true, if_pos]
    rw [hnext, ih (k + 1) m (by omega) (by omega) (by omega)]
    simp [List.range', dupTwice]

/-- Claim C5.  For the circle preset (drawPresets 0) the emitted outline
point list consists of the points `(cos(i) * r/2, 0, sin(i) * r/2)` for `i`
stepping from `0` by `pi/21` while `i < 2 * pi` (exactly the 42 angles
`k * (pi/21)` with `k < 42`), each multiplied by the rotation matrix `rM`
and translated by the offset vector, with every point except the first
appended twice so that consecutive pairs form line segments. -/
theorem circle_preset_points (cosv sinv : ℚ → ℚ) (pi r : ℚ) (rM : Mat3) (off : Pt)
    (hpi : 0 < pi) :
    circleDrawPoints cosv sinv pi r rM off
        = dupAllButFirst (circleSpecPoints cosv sinv pi r rM off)
      ∧ ∀ k : Nat, ((k : ℚ) * (pi / 21) < 2 * pi ↔ k < 42) := by
  constructor
  · rw [circleDrawPoints]
    have h0 : (0 : ℚ) < 2 * pi := by positivity
    have hne0 : ¬ ((0 : ℚ) ≠ 0) := by simp
    show circleGo cosv sinv pi r rM off (99 + 1) 0 = _
    have h1 : (0 : ℚ) + pi / 21 = ((1 : Nat) : ℚ) * (pi / 21) := by push_cast; ring
    rw [circleGo, if_pos h0]
    dsimp only
    rw [if_neg hne0, List.nil_append, h1,
      circleGo_tail cosv sinv pi r rM off hpi 41 1 99 (by omega) (by omega) (by omega)]
    have hrange : List.range 42 = 0 :: List.range' 1 41 := by
      rw [List.range_eq_range']
      rfl
    simp only [circleSpecPoints, hrange, List.map_cons, dupAllButFirst]
    simp
  · intro k
    constructor
    · intro h
      by_contra hk
      have h42 : (42 : ℚ) ≤ (k : ℚ) := by exact_mod_cast (by omega : 42 ≤ k)
      have hstep : (0 : ℚ) < pi / 21 := by positivity
      have : 2 * pi ≤ (k : ℚ) * (pi / 21) := by
        calc 2 * pi = 42 * (pi / 21) := by ring
          _ ≤ (k : ℚ) * (pi / 21) := by
            exact mul_le_mul_of_nonneg_right h42 (le_of_lt hstep)
      linarith
    · intro h
      have h42 : ((k : ℚ)) < 42 := by exact_mod_cast h
      have hstep : (0 : ℚ) < pi / 21 := by positivity
      calc ((k : ℚ)) * (pi / 21) < 42 * (pi / 21) := by
            exact mul_lt_mul_of_pos_right h42 hstep
        _ = 2 * pi := by ring

/-- Witness for C5 at concrete inputs. -/
theorem circle_preset_points_witness :
    (0 : ℚ) < 21
      ∧ circleDrawPoints (fun _ => 1) (fun _ => 0) 21 2 mat3Id ptZero
          = dupAllButFirst (circleSpecPoints (fun _ => 1) (fun _ => 0) 21 2 mat3Id ptZero) :=
  ⟨by norm_num,
   (circle_preset_points (fun _ => 1) (fun _ => 0) 21 2 mat3Id ptZero (by norm_num)).1⟩

/-!
Preset enum attribute (`BaseLoc.cpp` 4656-4675, `BaseLoc::initialize`).
-/

/-- Fields added to the `presets` enum attribute by `BaseLoc::initialize`
(`eAttr.addField` calls, `BaseLoc.cpp` 4658-4670), in source order. -/
def presetEnumFields : List (String × Int) :=
  [("Circle", 0), ("Box", 1), ("Sphere", 2), ("Cone", 3), ("Rectangle", 4),
   ("Drag handle", 5), ("Icon", 6), ("Gyroscope", 7), ("Camera", 8),
   ("2D Icons", 9), ("A-B", 10), ("File", 11), ("Debug", 12)]

/-- Default value of the `presets` attribute, `eAttr.setDefault(6)`
(`BaseLoc.cpp` 4672). -/
def presetDefault : Int := 6

/-- Counterexample to C4 as stated: the `presets` enum attribute does not
offer exactly a dozen presets. -/
theorem presetEnumFields_not_a_dozen : ¬ presetEnumFields.length = 12 := by
  decide

/-- Claim C4 (amended).  The geometry template drawn each frame is selected
by the integer `presets` enum node attribute, which offers exactly thirteen
hard-coded presets with enum values 0 through 12 (circle, box, sphere,
cone, rectangle, drag handle, icon, gyroscope, camera, 2D icons, A-B, file,
debug), with default value 6 (Icon). -/
theorem presetEnumFields_characterization :
    presetEnumFields.length = 13
      ∧ presetEnumFields.map Prod.snd
          = [0, 1, 2, 3, 4, 5, 6, 7, 8, 9, 10, 11, 12]
      ∧ presetEnumFields.map Prod.fst
          = ["Circle", "Box", "Sphere", "Cone", "Rectangle", "Drag handle",
             "Icon", "Gyroscope", "Camera", "2D Icons", "A-B", "File", "Debug"]
      ∧ presetDefault = 6 ∧ ("Icon", presetDefault) ∈ presetEnumFields := by
  refine ⟨rfl, rfl, rfl, rfl, ?_⟩
  simp [presetEnumFields, presetDefault]

/-!
Filesystem effects (`BaseLoc.cpp` 333-393 and `Utils.h` 223-381).  Each
function is modelled by the list of paths of the files it creates or
writes, together with its other observable results.
-/

/-- Model of `BaseLoc::checkPresetFolder` (`BaseLoc.cpp` 333-393), called
from `BaseLoc::postConstructor` (`BaseLoc.cpp` 126).  Inputs: the plugin
load path, whether `pBaseLoc.cfg` exists there, and its lines when it does.
Returns the list of files written and the resulting `s_readPluginPath`
(the `getline` loop keeps the last line; the path is cleared first). -/
def checkPresetFolder (pluginLoadPath : String) (cfgExists : Bool)
    (cfgLines : List String) : List String × String :=
  if cfgExists then
    ([], cfgLines.foldl (fun _ line => line) "")
  else
    ([pluginLoadPath ++ "/pBaseLoc.cfg"], pluginLoadPath ++ "/")

/-- Model of `save_locatorData` (`Utils.h` 223-381): the polygon-count
guard returns before the output file is created; otherwise constructing
`ofstream fout` creates `<path><preset>.blp` exactly when the stream opens
(`foutOpens`).  The result is the list of files created. -/
def save_locatorData (s_pathName s_presetName : String) (numPolygons : Int)
    (foutOpens : Bool) : List String :=
  if numPolygons > 2000 then []
  else if foutOpens then [s_pathName ++ s_presetName ++ ".blp"] else []

/-- Model of `writeIcon_binary` (`icons.h` 6-17): opens
`path + filename` as a binary output stream and writes the embedded icon
bytes; the result is the file it creates. -/
def writeIcon_binary (path filename : String) : List String :=
  [path ++ filename]

/-- Model of `icons_data_write` (`icons.h` 21-44): writes the eight
embedded `.png` icon files into the user bitmaps directory `path`. -/
def icons_data_write (path : String) : List String :=
  writeIcon_binary path "out_BaseLoc.png"
    ++ writeIcon_binary path "BaseLoc_bb.png"
    ++ writeIcon_binary path "BaseLoc.png"
    ++ writeIcon_binary path "baseLoc_Refresh.png"
    ++ writeIcon_binary path "baseLoc_Plus.png"
    ++ writeIcon_binary path "baseLoc_Minus.png"
    ++ writeIcon_binary path "baseLoc_CCLogo.png"
    ++ writeIcon_binary path "baseLoc_Apply.png"

/-- Icon branch of `initializePlugin` (`PluginMain.cpp` 24-29):
`icons_data_write` runs when `BASELOC_REBUILD_ICONS` is unset or its
`asShort()` value is zero (`if (!rebuild_icons.asShort())`).
`rebuildIcons` is that short value; an unset variable reads as 0. -/
def initializePlugin_iconWrites (rebuildIcons : Int) (path : String) : List String :=
  if rebuildIcons == 0 then icons_data_write path else []

/-- Counterexample to C7 as stated: node construction does not leave the
filesystem unchanged; when `pBaseLoc.cfg` is absent, `checkPresetFolder`
(run from `postConstructor`) creates it. -/
theorem checkPresetFolder_writes : (checkPresetFolder "plugins" false []).1 ≠ [] := by
  decide

/-- Claim C7 (amended).  The BaseLoc plugin writes to disk in exactly
three places: `icons_data_write`, run from `initializePlugin` whenever the
`BASELOC_REBUILD_ICONS` environment variable is unset or reads as zero,
writes the eight embedded `.png` icon files to the user bitmaps directory;
`checkPresetFolder` (run at node construction) creates a default
`pBaseLoc.cfg` in the plugin load path exactly when that file does not
exist; and `save_locatorData` creates `<presetPath><presetName>.blp`
exactly when the selected polygon count does not exceed 2000 and the
output stream opens; every other path of these operations leaves the
filesystem unchanged. -/
theorem filesystem_writes_characterization (p preset path iconPath : String)
    (lines : List String) (npoly rebuildIcons : Int) (fout : Bool) :
    (checkPresetFolder p true lines).1 = []
      ∧ (checkPresetFolder p false lines).1 = [p ++ "/pBaseLoc.cfg"]
      ∧ (2000 < npoly → save_locatorData path preset npoly fout = [])
      ∧ (npoly ≤ 2000 → fout = true →
          save_locatorData path preset npoly fout = [path ++ preset ++ ".blp"])
      ∧ (npoly ≤ 2000 → fout = false → save_locatorData path preset npoly fout = [])
      ∧ icons_data_write iconPath
          = [iconPath ++ "out_BaseLoc.png", iconPath ++ "BaseLoc_bb.png",
             iconPath ++ "BaseLoc.png", iconPath ++ "baseLoc_Refresh.png",
             iconPath ++ "baseLoc_Plus.png", iconPath ++ "baseLoc_Minus.png",
             iconPath ++ "baseLoc_CCLogo.png", iconPath ++ "baseLoc_Apply.png"]
      ∧ (icons_data_write iconPath).length = 8
      ∧ (rebuildIcons = 0 →
          initializePlugin_iconWrites rebuildIcons iconPath = icons_data_write iconPath)
      ∧ (rebuildIcons ≠ 0 → initializePlugin_iconWrites rebuildIcons iconPath = []) := by
  refine ⟨rfl, rfl, ?_, ?_, ?_, rfl, rfl, ?_, ?_⟩
  · intro h
    simp [save_locatorData, h]
  · intro h hf
    subst hf
    rw [save_locatorData, if_neg (by omega), if_pos rfl]
  · intro h hf
    subst hf
    rw [save_locatorData, if_neg (by omega)]
    simp
  · intro h
    subst h
    rfl
  · intro h
    rw [initializePlugin_iconWrites, if_neg (by simpa using h)]

/-- Witness for C7 (amended) at concrete inputs. -/
theorem filesystem_writes_characterization_witness :
    (2000 : Int) ≤ 2000 ∧ (0 : Int) = 0 ∧ (1 : Int) ≠ 0
      ∧ save_locatorData "d:/WORK/" "box" 2000 true = ["d:/WORK/box.blp"]
      ∧ initializePlugin_iconWrites 0 "bitmaps/" = icons_data_write "bitmaps/"
      ∧ initializePlugin_iconWrites 1 "bitmaps/" = [] := by
  have h := filesystem_writes_characterization "plugins" "box" "d:/WORK/" "bitmaps/"
    [] 2000 0 true
  have h1 := filesystem_writes_characterization "plugins" "box" "d:/WORK/" "bitmaps/"
    [] 2000 1 true
  exact ⟨le_refl 2000, rfl, by norm_num,
    h.2.2.2.1 (le_refl 2000) rfl,
    h.2.2.2.2.2.2.2.1 rfl,
    h1.2.2.2.2.2.2.2.2 (by norm_num)⟩

/-!
Preset-file parsing (`Utils.h` 59-217, `load_locatorData`).  A data line is
modelled as its comma-split token list, each token already converted by
`MString::asDouble`.  Indexing returns an `Option`, so an out-of-bounds
token access surfaces as `none`.
-/

/-- Token-triple loop of `load_locatorData` (`Utils.h` 86-100 and 111-124):
`for (int i = 0; i < length; i += 3)` with the inner guard
`if (i > length) break;`, reading tokens `i`, `i+1`, `i+2` into a point.
The C++ loop runs at most `length` iterations, so the explicit fuel
(always called with `length + 1`) never runs out. -/
def parseTriplesGo (toks : List ℚ) : Nat → Nat → Option (List Pt)
  | _, 0 => some []
  | i, fuel + 1 =>
    if i < toks.length then
      if toks.length < i then some []
      else
        match toks[i]?, toks[i + 1]?, toks[i + 2]? with
        | some x, some y, some z =>
          (parseTriplesGo toks (i + 3) fuel).map (fun rest => (⟨x, y, z⟩ : Pt) :: rest)
        | _, _, _ => none
    else some []

/-- Token-triple parse of one data line of a `.blp` file. -/
def parseTriples (toks : List ℚ) : Option (List Pt) :=
  parseTriplesGo toks 0 (toks.length + 1)

/-- The same loop without the dead inner guard `if (i > length) break;`. -/
def parseTriplesNoGuard (toks : List ℚ) : Nat → Nat → Option (List Pt)
  | _, 0 => some []
  | i, fuel + 1 =>
    if i < toks.length then
      match toks[i]?, toks[i + 1]?, toks[i + 2]? with
      | some x, some y, some z =>
        (parseTriplesNoGuard toks (i + 3) fuel).map (fun rest => (⟨x, y, z⟩ : Pt) :: rest)
      | _, _, _ => none
    else some []

theorem parseTriplesGo_guard_dead (toks : List ℚ) :
    ∀ (fuel i : Nat), parseTriplesGo toks i fuel = parseTriplesNoGuard toks i fuel := by
  intro fuel
  induction fuel with
  | zero => intro i; rfl
  | succ fuel ih =>
    intro i
    by_cases h : i < toks.length
    · have hng : ¬ toks.length < i := by omega
      rw [parseTriplesGo, parseTriplesNoGuard, if_pos h, if_pos h, if_neg hng]
      rw [ih]
    · rw [parseTriplesGo, parseTriplesNoGuard, if_neg h, if_neg h]

theorem parseTriplesGo_isSome_iff (toks : List ℚ) :
    ∀ (fuel i : Nat), toks.length - i < fuel →
      ((parseTriplesGo toks i fuel).isSome = true ↔ (toks.length - i) % 3 = 0) := by
  intro fuel
  induction fuel with
  | zero => intro i h; omega
  | succ fuel ih =>
    intro i hfuel
    by_cases h : i < toks.length
    · have hng : ¬ toks.length < i := by omega
      rw [parseTriplesGo, if_pos h, if_neg hng]
      have h0 : toks[i]? = some (toks.get ⟨i, h⟩) := List.getElem?_eq_getElem h
      by_cases h1 : i + 1 < toks.length
      · by_cases h2 : i + 2 < toks.length
        · have h1v : toks[i + 1]? = some (toks.get ⟨i + 1, h1⟩) := List.getElem?_eq_getElem h1
          have h2v : toks[i + 2]? = some (toks.get ⟨i + 2, h2⟩) := List.getElem?_eq_getElem h2
          rw [h0, h1v, h2v]
          have hrec := ih (i + 3) (by omega)
          cases hr : parseTriplesGo toks (i + 3) fuel <;>
            rw [hr] at hrec <;> simp at hrec ⊢ <;> omega
        · have h2v : toks[i + 2]? = none := by
            rw [List.getElem?_eq_none]
            omega
          rw [h0, h2v]
          cases hx : toks[i + 1]? <;> simp <;> omega
      · have h1v : toks[i + 1]? = none := by
          rw [List.getElem?_eq_none]
          omega
        rw [h0, h1v]
        simp
        omega
    · rw [parseTriplesGo, if_neg h]
      simp
      omega

/-- Claim C9.  The triple loop of `load_locatorData` reads comma-split
tokens at indices `i`, `i+1`, `i+2` for every `i < length` in steps of 3;
its loop-break guard `if (i > length)` can never fire before those accesses
(removing it does not change the function), and in the total embedding the
out-of-bounds branch is avoided exactly when the token count of the line is
a multiple of 3. -/
theorem parseTriples_guard_and_bounds (toks : List ℚ) :
    parseTriples toks = parseTriplesNoGuard toks 0 (toks.length + 1)
      ∧ ((parseTriples toks).isSome = true ↔ toks.length % 3 = 0) := by
  constructor
  · exact parseTriplesGo_guard_dead toks (toks.length + 1) 0
  · have h := parseTriplesGo_isSome_iff toks (toks.length + 1) 0 (by omega)
    simpa using h

/-!
Preset loading (`Utils.h` 37-219, `load_locatorData`): plug updates and
bounding-box computation.
-/

/-- Model of `MBoundingBox`: `none` is the freshly constructed empty box;
`expand` grows it to include a point. -/
def bboxExpand : Option (Pt × Pt) → Pt → Option (Pt × Pt)
  | none, p => some (p, p)
  | some (mn, mx), p =>
    some (⟨min mn.x p.x, min mn.y p.y, min mn.z p.z⟩,
          ⟨max mx.x p.x, max mx.y p.y, max mx.z p.z⟩)

/-- Expansion of a bounding box over a point list, as in the loops of
`Utils.h` 177-185. -/
def bboxExpandList (b : Option (Pt × Pt)) (pts : List Pt) : Option (Pt × Pt) :=
  pts.foldl bboxExpand b

/-- Minimum corner, `MBoundingBox::min()` (origin for the empty box). -/
def bboxMin : Option (Pt × Pt) → Pt
  | none => ptZero
  | some (mn, _) => mn

/-- Maximum corner, `MBoundingBox::max()`. -/
def bboxMax : Option (Pt × Pt) → Pt
  | none => ptZero
  | some (_, mx) => mx

/-- Componentwise minimum of two points. -/
def cminPt (p q : Pt) : Pt := ⟨min p.x q.x, min p.y q.y, min p.z q.z⟩

/-- Componentwise maximum of two points. -/
def cmaxPt (p q : Pt) : Pt := ⟨max p.x q.x, max p.y q.y, max p.z q.z⟩

/-- Componentwise minimum over a nonempty point list (origin for `[]`). -/
def listMinPt : List Pt → Pt
  | [] => ptZero
  | p :: ps => ps.foldl cminPt p

/-- Componentwise maximum over a nonempty point list (origin for `[]`). -/
def listMaxPt : List Pt → Pt
  | [] => ptZero
  | p :: ps => ps.foldl cmaxPt p

/-- The plugs of a BaseLoc node that `load_locatorData` sets. -/
structure LocPlugState where
  inPointArray : List Pt
  inTriangleArray : List Pt
  boundingBoxA : Pt
  boundingBoxB : Pt
deriving DecidableEq

/-- Maya status codes used by the embedded functions. -/
inductive MStatus where
  | kSuccess : MStatus
  | kFailure : MStatus
deriving DecidableEq

/-- Model of `load_locatorData` (`Utils.h` 37-219).  The file content is
given as the list of its lines, each already comma-split into `asDouble`
token values (line 0 is the preset name, whose tokens are unused).  When
the file does not consist of exactly 3 lines only an informational message
is displayed (third component `true`) and the plug state `st` is left
unchanged; otherwise lines 1 and 2 are parsed in triples, the point and
triangle plugs are set, and the bounding-box plugs receive the corners of
the box expanded over all triangle points, then all line points.  An
out-of-bounds token access (undefined behaviour in the C++) is `none`. -/
def load_locatorData (lines : List (List ℚ)) (st : LocPlugState) :
    Option (MStatus × LocPlugState × Bool) :=
  if lines.length == 3 then
    match parseTriples (lines.getD 1 []), parseTriples (lines.getD 2 []) with
    | some linePts, some triPts =>
      let bb := bboxExpandList (bboxExpandList none triPts) linePts
      some (MStatus.kSuccess,
        { inPointArray := linePts, inTriangleArray := triPts,
          boundingBoxA := bboxMin bb, boundingBoxB := bboxMax bb }, false)
    | _, _ => none
  else
    some (MStatus.kSuccess, st, true)

theorem bboxExpandList_some (pts : List Pt) :
    ∀ (mn mx : Pt), bboxExpandList (some (mn, mx)) pts
      = some (pts.foldl cminPt mn, pts.foldl cmaxPt mx) := by
  induction pts with
  | nil => intro mn mx; rfl
  | cons p ps ih =>
    intro mn mx
    show bboxExpandList (bboxExpand (some (mn, mx)) p) ps = _
    rw [bboxExpand]
    rw [ih]
    rfl

theorem bboxExpandList_concat (triPts linePts : List Pt)
    (hne : triPts ++ linePts ≠ []) :
    bboxExpandList (bboxExpandList none triPts) linePts
      = some (listMinPt (triPts ++ linePts), listMaxPt (triPts ++ linePts)) := by
  cases triPts with
  | nil =>
    cases linePts with
    | nil => exact absurd rfl hne
    | cons p ps =>
      show bboxExpandList (bboxExpand none p) ps = _
      rw [bboxExpand, bboxExpandList_some]
      rfl
  | cons t ts =>
    show bboxExpandList (bboxExpandList (bboxExpand none t) ts) linePts = _
    rw [bboxExpand, bboxExpandList_some, bboxExpandList_some]
    simp only [listMinPt, listMaxPt, List.cons_append, List.foldl_append]

/-- Claim C8.  For every `.blp` file content that does not consist of
exactly 3 lines, `load_locatorData` sets no plug, only displays an
informational message, and still returns `kSuccess`; when the file does
have exactly 3 lines (and the data lines parse in bounds with at least one
point), the `boundingBoxA` and `boundingBoxB` plugs are set to the
componentwise minimum and maximum over all parsed line and triangle
points. -/
theorem load_locatorData_atomicity (lines : List (List ℚ)) (st : LocPlugState)
    (linePts triPts : List Pt)
    (hlen : lines.length = 3)
    (hp : parseTriples (lines.getD 1 []) = some linePts)
    (ht : parseTriples (lines.getD 2 []) = some triPts)
    (hne : triPts ++ linePts ≠ []) :
    load_locatorData lines st
        = some (MStatus.kSuccess,
            { inPointArray := linePts, inTriangleArray := triPts,
              boundingBoxA := listMinPt (triPts ++ linePts),
              boundingBoxB := listMaxPt (triPts ++ linePts) }, false)
      ∧ ∀ (lines2 : List (List ℚ)) (st2 : LocPlugState), lines2.length ≠ 3 →
          load_locatorData lines2 st2 = some (MStatus.kSuccess, st2, true) := by
  constructor
  · rw [load_locatorData, if_pos (by simp [hlen]), hp, ht]
    dsimp only
    rw [bboxExpandList_concat triPts linePts hne]
    rfl
  · intro lines2 st2 hlen2
    rw [load_locatorData, if_neg (by simp [hlen2])]

/-- Witness for C8 at concrete inputs. -/
theorem load_locatorData_atomicity_witness :
    ([([] : List ℚ), [1, 2, 3], [4, 5, 6, 0, 7, 8]] : List (List ℚ)).length = 3
      ∧ load_locatorData [[], [1, 2, 3], [4, 5, 6, 0, 7, 8]] ⟨[], [], ptZero, ptZero⟩
          = some (MStatus.kSuccess,
              { inPointArray := [⟨1, 2, 3⟩],
                inTriangleArray := [⟨4, 5, 6⟩, ⟨0, 7, 8⟩],
                boundingBoxA := listMinPt ([⟨4, 5, 6⟩, ⟨0, 7, 8⟩] ++ [⟨1, 2, 3⟩]),
                boundingBoxB := listMaxPt ([⟨4, 5, 6⟩, ⟨0, 7, 8⟩] ++ [⟨1, 2, 3⟩]) }, false) :=
  ⟨rfl,
   (load_locatorData_atomicity [[], [1, 2, 3], [4, 5, 6, 0, 7, 8]] ⟨[], [], ptZero, ptZero⟩
      [⟨1, 2, 3⟩] [⟨4, 5, 6⟩, ⟨0, 7, 8⟩] rfl (by decide) (by decide) (by decide)).1⟩

/-!
Locator-creation command (`BaseLocCommand.cpp` 72-377 `doIt`,
380-558 `createLocator`).
-/

/-- Flag values parsed by `BaseLocCommand::doIt` (`BaseLocCommand.cpp`
119-133); a `none` field means the flag was not set and the `doIt` default
is used. -/
structure CmdArgs where
  preset : Option Int
  icontype : Option Int
  color : Option Int
  radius : Option ℚ
  offsetx : Option ℚ
  offsety : Option ℚ
  offsetz : Option ℚ
  rotatex : Option ℚ
  rotatey : Option ℚ
  rotatez : Option ℚ
deriving DecidableEq

/-- Plugs that `BaseLocCommand::createLocator` sets on the new node
(`BaseLocCommand.cpp` 507-547). -/
structure LocPlugs where
  presets : Int
  iconType : Int
  radius : ℚ
  offset : Pt
  rotate : Pt
  scale : Pt
  lineColor : ℚ × ℚ × ℚ
  polygonColor : ℚ × ℚ × ℚ
deriving DecidableEq

/-- Colour switch of `createLocator` (`BaseLocCommand.cpp` 393-409). -/
def colorFromIndex (c : Int) : ℚ × ℚ × ℚ :=
  if c = 1 then (1, 0, 0)
  else if c = 2 then (0, 1, 0)
  else if c = 3 then (0, 0, 1)
  else if c = 4 then (0, 1, 1)
  else if c = 5 then (1, 0, 1)
  else if c = 6 then (1, 1, 0)
  else if c = 7 then (1 / 2, 1 / 2, 1 / 2)
  else if c = 8 then (1, 1 / 2, 1 / 2)
  else if c = 9 then (1 / 2, 1, 1 / 2)
  else if c = 10 then (1, 1, 1)
  else (1, 1, 1)

/-- Model of `BaseLocCommand::createLocator` (`BaseLocCommand.cpp`
380-558): the parsed values are clamped (`i_preset > 10` to 10,
`i_icontype > 26` to 26, `d_radius <= 0.0` to 1.0) and written to the
plugs of the freshly created node. -/
def createLocator (i_preset i_icontype : Int) (d_radius : ℚ) (i_color : Int)
    (offX offY offZ rotX rotY rotZ scX scY scZ : ℚ) : LocPlugs :=
  let i_preset := if i_preset > 10 then 10 else i_preset
  let i_icontype := if i_icontype > 26 then 26 else i_icontype
  let d_radius := if d_radius ≤ 0 then 1 else d_radius
  let rgb := colorFromIndex i_color
  { presets := i_preset, iconType := i_icontype, radius := d_radius,
    offset := ⟨offX, offY, offZ⟩, rotate := ⟨rotX, rotY, rotZ⟩,
    scale := ⟨scX, scY, scZ⟩, lineColor := rgb,
    polygonColor := (rgb.1 - 1 / 2, rgb.2.1 - 1 / 2, rgb.2.2 - 1 / 2) }

/-- Locator creation for an accepted argument list of the plain
(non-save/load, non-boundingBox) path of `doIt`: defaults
`i_preset = 0`, `i_icontype = 0`, `i_color = 7`, `d_radius = 1.0`,
offsets and rotations `0.0`, scale `1.0` (`BaseLocCommand.cpp` 84-133,
366). -/
def doItCreate (args : CmdArgs) : LocPlugs :=
  createLocator (args.preset.getD 0) (args.icontype.getD 0)
    (args.radius.getD 1) (args.color.getD 7)
    (args.offsetx.getD 0) (args.offsety.getD 0) (args.offsetz.getD 0)
    (args.rotatex.getD 0) (args.rotatey.getD 0) (args.rotatez.getD 0)
    1 1 1

/-- Claim C10.  For every argument list accepted by `BaseLocCommand`, the
locator node created by `createLocator` has its `presets` plug at most 10
(values above 10 are clamped to 10, so the File and Debug presets are never
selected by the command), its `iconType` plug at most 26, and its `radius`
plug strictly positive (a radius of 0 or less is replaced by 1.0). -/
theorem createLocator_plug_bounds
    (p i c : Int) (r offX offY offZ rotX rotY rotZ scX scY scZ : ℚ)
    (args : CmdArgs) :
    (createLocator p i r c offX offY offZ rotX rotY rotZ scX scY scZ).presets ≤ 10
      ∧ (createLocator p i r c offX offY offZ rotX rotY rotZ scX scY scZ).iconType ≤ 26
      ∧ 0 < (createLocator p i r c offX offY offZ rotX rotY rotZ scX scY scZ).radius
      ∧ (10 < p →
          (createLocator p i r c offX offY offZ rotX rotY rotZ scX scY scZ).presets = 10)
      ∧ (r ≤ 0 →
          (createLocator p i r c offX offY offZ rotX rotY rotZ scX scY scZ).radius = 1)
      ∧ (doItCreate args).presets ≤ 10
      ∧ (doItCreate args).iconType ≤ 26
      ∧ 0 < (doItCreate args).radius := by
  have key : ∀ (p i c : Int) (r oX oY oZ rX rY rZ sX sY sZ : ℚ),
      (createLocator p i r c oX oY oZ rX rY rZ sX sY sZ).presets ≤ 10
        ∧ (createLocator p i r c oX oY oZ rX rY rZ sX sY sZ).iconType ≤ 26
        ∧ 0 < (createLocator p i r c oX oY oZ rX rY rZ sX sY sZ).radius
        ∧ (10 < p → (createLocator p i r c oX oY oZ rX rY rZ sX sY sZ).presets = 10)
        ∧ (r ≤ 0 → (createLocator p i r c oX oY oZ rX rY rZ sX sY sZ).radius = 1) := by
    intro p i c r oX oY oZ rX rY rZ sX sY sZ
    simp only [createLocator]
    refine ⟨?_, ?_, ?_, ?_, ?_⟩
    · dsimp only
      split <;> omega
    · dsimp only
      split <;> omega
    · dsimp only
      split
      · norm_num
      · rename_i hr
        exact lt_of_not_ge (fun hge => hr (by linarith))
    · intro hp
      rw [if_pos hp]
    · intro hr
      rw [if_pos hr]
  obtain ⟨h1, h2, h3, h4, h5⟩ :=
    key p i c r offX offY offZ rotX rotY rotZ scX scY scZ
  obtain ⟨g1, g2, g3, _, _⟩ :=
    key (args.preset.getD 0) (args.icontype.getD 0) (args.color.getD 7)
      (args.radius.getD 1) (args.offsetx.getD 0) (args.offsety.getD 0)
      (args.offsetz.getD 0) (args.rotatex.getD 0) (args.rotatey.getD 0)
      (args.rotatez.getD 0) 1 1 1
  exact ⟨h1, h2, h3, h4, h5, g1, g2, g3⟩

/-- Witness for C10 at concrete inputs. -/
theorem createLocator_plug_bounds_witness :
    (10 : Int) < 99 ∧ (-5 : ℚ) ≤ 0
      ∧ (createLocator 99 99 (-5) 4 0 0 0 0 0 0 1 1 1).presets = 10
      ∧ (createLocator 99 99 (-5) 4 0 0 0 0 0 0 1 1 1).radius = 1
      ∧ (doItCreate ⟨some 11, some 30, some 4, some (-2),
          none, none, none, none, none, none⟩).presets ≤ 10 := by
  have h := createLocator_plug_bounds 99 99 4 (-5) 0 0 0 0 0 0 1 1 1
    ⟨some 11, some 30, some 4, some (-2), none, none, none, none, none, none⟩
  exact ⟨by norm_num, by norm_num,
    h.2.2.2.1 (by norm_num), h.2.2.2.2.1 (by norm_num), h.2.2.2.2.2.1⟩
